import Mathlib

/-!
Verification of the bbrl_examples training-loop core against its
natural-language specification: GAE advantage estimation, the
must_bootstrap mask, Workspace continuation, stochastic-actor frame
effects, and NoAutoReset evaluation rollouts.

Conventions: a batched tensor is modelled per batch slot; scalar tensor
entries become ℚ (exact arithmetic in place of machine floats); a
time-indexed channel becomes a `List` indexed by time step.  Operations
of the bbrl/salina core library that are not part of this repository's
sources are modelled from the specification and marked as such in their
doc comments; everything else is translated from the repository's code.
-/

namespace BbrlSpec

/-- Numeric value of a boolean mask entry, as produced by
`must_bootstrap.int()` / `must_bootstrap.float()`:
`True ↦ 1`, `False ↦ 0`. -/
def boolVal (b : Bool) : ℚ := if b then 1 else 0

/-- Modelled from the spec: the library function
`bbrl.utils.functionalb.gae` is not part of this repository (only its
callers `compute_advantages_loss` / `compute_advantage_loss` are), so it
is modelled from the specification's algorithm.  Per batch slot, `v`
holds the value estimates `V[0..T]`, `r` the rewards `r[0..T-1]` and
`mb` the `must_bootstrap[0..T-1]` mask.  The one-step TD residual is
`δ_t = r_t + γ·V_{t+1}·mb_t − V_t` and the advantage is the backward
accumulation `A_t = δ_t + γ·λ·mb_t·A_{t+1}`, with `A_T`
undefined/unused: the last step has no successor, so its recursion term
is taken as 0. -/
def gae (γ lam : ℚ) : List ℚ → List ℚ → List Bool → List ℚ
  | v :: vNext :: vs, r :: rs, m :: ms =>
    let rest := gae γ lam (vNext :: vs) rs ms
    (r + γ * vNext * boolVal m - v + γ * lam * boolVal m * rest.headD 0) :: rest
  | _, _, _ => []

/-- Embedding of `compute_advantages_loss` (a2c.py, lines 72–86) and of
the identical `compute_advantage_loss` (ppo_basic.py, lines 77–89): call
`gae` with the configured discount factor `γ` and trace-decay `λ`, then
return the critic loss `mean(advantages ** 2)` together with the
advantages. -/
def compute_advantages_loss (discount_factor gae_coef : ℚ)
    (reward : List ℚ) (must_bootstrap : List Bool) (v_value : List ℚ) :
    ℚ × List ℚ :=
  let advantages := gae discount_factor gae_coef v_value reward must_bootstrap
  let td_error := advantages.map (fun a => a * a)
  (td_error.sum / (td_error.length : ℚ), advantages)

theorem headD_eq_getD_zero {α : Type} (l : List α) (d : α) :
    l.headD d = l.getD 0 d := by
  cases l <;> rfl

theorem gae_getD (γ lam : ℚ) (v r : List ℚ) (mb : List Bool)
    (hv : v.length = r.length + 1) (hmb : mb.length = r.length)
    (t : ℕ) (ht : t < r.length) :
    (gae γ lam v r mb).getD t 0 =
      r.getD t 0 + γ * v.getD (t + 1) 0 * boolVal (mb.getD t false)
        - v.getD t 0
        + γ * lam * boolVal (mb.getD t false)
          * (gae γ lam v r mb).getD (t + 1) 0 := by
  induction r generalizing v mb t with
  | nil => simp at ht
  | cons r0 rs ih =>
    rcases mb with - | ⟨m0, ms⟩
    · simp at hmb
    rcases v with - | ⟨v0, vtl⟩
    · simp at hv
    rcases vtl with - | ⟨v1, vs⟩
    · simp at hv
    cases t with
    | zero =>
      simp only [gae, List.getD_cons_zero, List.getD_cons_succ]
      rw [headD_eq_getD_zero]
    | succ t =>
      simp only [gae, List.getD_cons_succ]
      have hv' : (v1 :: vs).length = rs.length + 1 := by
        simpa using hv
      have hmb' : ms.length = rs.length := by
        simpa using hmb
      have ht' : t < rs.length := by
        simpa using ht
      exact ih (v1 :: vs) ms hv' hmb' t ht'

/-- **C1.** For every time step `t` in `0..T-1`, the advantage returned
by the GAE estimator as invoked by `compute_advantages_loss` /
`compute_advantage_loss` satisfies
`A_t = δ_t + γ·λ·mb_t·A_{t+1}` with
`δ_t = r_t + γ·V_{t+1}·mb_t − V_t` (at the last step, which has no
successor, the recursion term reads 0 for the unused `A_T`);
in particular, for `λ = 0`, `A_t` equals the one-step TD residual
`r_t + γ·V_{t+1}·mb_t − V_t` for every `t`; and whenever `mb_t` is
false, `A_t = r_t − V_t`, which does not depend on `V_{t+1}`. -/
theorem gae_recursion_td0_and_mask (γ lam : ℚ) (r v_value : List ℚ)
    (mb : List Bool) (hv : v_value.length = r.length + 1)
    (hmb : mb.length = r.length) :
    (∀ t, t < r.length →
      (compute_advantages_loss γ lam r mb v_value).2.getD t 0 =
        r.getD t 0
          + γ * v_value.getD (t + 1) 0 * boolVal (mb.getD t false)
          - v_value.getD t 0
          + γ * lam * boolVal (mb.getD t false)
            * (compute_advantages_loss γ lam r mb v_value).2.getD (t + 1) 0)
    ∧ (lam = 0 → ∀ t, t < r.length →
      (compute_advantages_loss γ lam r mb v_value).2.getD t 0 =
        r.getD t 0
          + γ * v_value.getD (t + 1) 0 * boolVal (mb.getD t false)
          - v_value.getD t 0)
    ∧ (∀ t, t < r.length → mb.getD t false = false →
      (compute_advantages_loss γ lam r mb v_value).2.getD t 0 =
        r.getD t 0 - v_value.getD t 0) := by
  have hadv : (compute_advantages_loss γ lam r mb v_value).2 =
      gae γ lam v_value r mb := rfl
  refine ⟨?_, ?_, ?_⟩
  · intro t ht
    rw [hadv]
    exact gae_getD γ lam v_value r mb hv hmb t ht
  · intro hlam t ht
    rw [hadv, gae_getD γ lam v_value r mb hv hmb t ht, hlam]
    ring
  · intro t ht hmask
    rw [hadv, gae_getD γ lam v_value r mb hv hmb t ht, hmask]
    simp [boolVal]

/-- Closed-form instance discharging the hypotheses of
`gae_recursion_td0_and_mask` at `γ = 1/2`, `λ = 1`,
`V = [1, 2, 3]`, `r = [5, 7]`, `mb = [true, false]`. -/
theorem gae_recursion_td0_and_mask_witness :
    (([(1 : ℚ), 2, 3] : List ℚ).length = ([(5 : ℚ), 7] : List ℚ).length + 1)
    ∧ (([true, false] : List Bool).length = ([(5 : ℚ), 7] : List ℚ).length)
    ∧ ((∀ t, t < ([(5 : ℚ), 7] : List ℚ).length →
      (compute_advantages_loss (1/2) 1 [(5 : ℚ), 7] [true, false]
          [(1 : ℚ), 2, 3]).2.getD t 0 =
        ([(5 : ℚ), 7] : List ℚ).getD t 0
          + (1/2) * ([(1 : ℚ), 2, 3] : List ℚ).getD (t + 1) 0
            * boolVal (([true, false] : List Bool).getD t false)
          - ([(1 : ℚ), 2, 3] : List ℚ).getD t 0
          + (1/2) * 1 * boolVal (([true, false] : List Bool).getD t false)
            * (compute_advantages_loss (1/2) 1 [(5 : ℚ), 7] [true, false]
                [(1 : ℚ), 2, 3]).2.getD (t + 1) 0)
    ∧ ((1 : ℚ) = 0 → ∀ t, t < ([(5 : ℚ), 7] : List ℚ).length →
      (compute_advantages_loss (1/2) 1 [(5 : ℚ), 7] [true, false]
          [(1 : ℚ), 2, 3]).2.getD t 0 =
        ([(5 : ℚ), 7] : List ℚ).getD t 0
          + (1/2) * ([(1 : ℚ), 2, 3] : List ℚ).getD (t + 1) 0
            * boolVal (([true, false] : List Bool).getD t false)
          - ([(1 : ℚ), 2, 3] : List ℚ).getD t 0)
    ∧ (∀ t, t < ([(5 : ℚ), 7] : List ℚ).length →
        ([true, false] : List Bool).getD t false = false →
      (compute_advantages_loss (1/2) 1 [(5 : ℚ), 7] [true, false]
          [(1 : ℚ), 2, 3]).2.getD t 0 =
        ([(5 : ℚ), 7] : List ℚ).getD t 0
          - ([(1 : ℚ), 2, 3] : List ℚ).getD t 0)) :=
  ⟨rfl, rfl,
    gae_recursion_td0_and_mask (1/2) 1 [(5 : ℚ), 7] [(1 : ℚ), 2, 3]
      [true, false] rfl rfl⟩

/-- Modelled from the spec: `Workspace.get_transitions` (the Workspace
class is not part of this repository's sources).  For a single channel,
it returns the adjacent-pair view `(t, t+1)` for every valid `t`; the
last raw time step, which has no successor, is dropped. -/
def get_transitions {α : Type} (l : List α) : List (α × α) :=
  l.zip l.tail

/-- Embedding of the line
`must_bootstrap = torch.logical_or(~done[1], truncated[1])`, which
appears identically in `run_a2c` (a2c.py line 172), `run_ppo`
(ppo_basic.py line 181) and `run_fqi` (fqi_tests.py line 124):
`done[1]` / `truncated[1]` select the second element of each transition
pair produced by `get_transitions`. -/
def must_bootstrap_mask (done truncated : List Bool) : List Bool :=
  List.zipWith (fun d tr => (!d) || tr)
    ((get_transitions done).map Prod.snd)
    ((get_transitions truncated).map Prod.snd)

theorem map_snd_get_transitions {α : Type} (l : List α) :
    (get_transitions l).map Prod.snd = l.tail := by
  unfold get_transitions
  exact List.map_snd_zip l l.tail (by cases l <;> simp)

theorem getD_zipWith_bool (f : Bool → Bool → Bool) (l₁ l₂ : List Bool)
    (i : ℕ) (h₁ : i < l₁.length) (h₂ : i < l₂.length) (d : Bool) :
    (List.zipWith f l₁ l₂).getD i d = f (l₁.getD i d) (l₂.getD i d) := by
  induction l₁ generalizing l₂ i with
  | nil => simp at h₁
  | cons a l₁ ih =>
    rcases l₂ with - | ⟨b, l₂⟩
    · simp at h₂
    cases i with
    | zero => rfl
    | succ i =>
      simp only [List.zipWith_cons_cons, List.getD_cons_succ]
      exact ih l₂ i (by simpa using h₁) (by simpa using h₂)

theorem getD_tail {α : Type} (l : List α) (i : ℕ) (d : α) :
    l.tail.getD i d = l.getD (i + 1) d := by
  cases l <;> rfl

/-- **C2.** For every transition index `i` produced by
`get_transitions`, the `must_bootstrap` mask computed by the identical
line in all three training loops (`run_a2c`, `run_ppo`, `run_fqi`)
equals `(not done) or truncated`, where `done`/`truncated` are the
episode-termination flags carried by that transition (its second
element, the flags at time `i+1`). -/
theorem must_bootstrap_is_not_done_or_truncated
    (done truncated : List Bool) (h : truncated.length = done.length)
    (i : ℕ) (hi : i + 1 < done.length) :
    (must_bootstrap_mask done truncated).getD i false =
      ((!done.getD (i + 1) false) || truncated.getD (i + 1) false) := by
  unfold must_bootstrap_mask
  rw [map_snd_get_transitions, map_snd_get_transitions]
  rw [getD_zipWith_bool _ done.tail truncated.tail i
    (by cases done <;> simp_all) (by cases truncated <;> simp_all <;> omega)]
  rw [getD_tail, getD_tail]

/-- Closed-form instance discharging the hypotheses of
`must_bootstrap_is_not_done_or_truncated` at
`done = [false, true, false]`, `truncated = [false, false, true]`,
transition index 0. -/
theorem must_bootstrap_is_not_done_or_truncated_witness :
    (([false, false, true] : List Bool).length
        = ([false, true, false] : List Bool).length)
    ∧ (0 + 1 < ([false, true, false] : List Bool).length)
    ∧ (must_bootstrap_mask [false, true, false] [false, false, true]).getD
        0 false =
      ((!([false, true, false] : List Bool).getD (0 + 1) false)
        || ([false, false, true] : List Bool).getD (0 + 1) false) :=
  ⟨rfl, by decide,
    must_bootstrap_is_not_done_or_truncated [false, true, false]
      [false, false, true] rfl 0 (by decide)⟩

/-- Modelled from the spec: `Workspace.copy_n_last_steps(n)` (the
Workspace class is not part of this repository's sources).  For a single
channel, it replaces the channel's content with only the last `n` time
steps, re-indexed starting at 0. -/
def copy_n_last_steps {α : Type} (n : ℕ) (l : List α) : List α :=
  l.drop (l.length - n)

/-- Modelled from the spec: a TemporalAgent run that writes `n` further
time steps onto a channel, one per step, each new step appended after
the existing content (the wrapped agent writes at times
`t_start, t_start+1, ...`, where `t_start` is the current channel
length; earlier time indices are left untouched).  `step` gives the
value that the wrapped agent writes at each time index. -/
def temporal_run {α : Type} (step : ℕ → α) : ℕ → List α → List α
  | 0, l => l
  | n + 1, l => temporal_run step n (l ++ [step l.length])

theorem copy_n_last_steps_getD {α : Type} (n : ℕ) (l : List α)
    (hn : n ≤ l.length) (t : ℕ) (ht : t < n) (d : α) :
    (copy_n_last_steps n l).getD t d = l.getD (l.length - n + t) d := by
  unfold copy_n_last_steps
  rw [List.getD_eq_getElem?_getD, List.getD_eq_getElem?_getD,
    List.getElem?_drop]

theorem temporal_run_getD_low {α : Type} (step : ℕ → α) (n : ℕ)
    (l : List α) (t : ℕ) (ht : t < l.length) (d : α) :
    (temporal_run step n l).getD t d = l.getD t d := by
  induction n generalizing l with
  | zero => rfl
  | succ n ih =>
    show (temporal_run step n (l ++ [step l.length])).getD t d = _
    rw [ih (l ++ [step l.length]) (by simp; omega)]
    rw [List.getD_append]
    exact ht

/-- **C3.** For every channel with `time_size ≥ n`, after
`copy_n_last_steps(n)` the time indices `0..n-1` hold exactly the
tensors that occupied the last `n` time steps before the call,
re-indexed from 0; consequently the epoch>0 training-loop pattern —
`copy_n_last_steps(1)` followed by running the temporal agent from
`t = 1` — yields a trajectory whose step 0 equals the last step of the
previous segment. -/
theorem copy_n_last_steps_continuation {α : Type} (n : ℕ) (l : List α)
    (hn : n ≤ l.length) (hpos : 0 < l.length) (step : ℕ → α)
    (n_steps : ℕ) (d : α) :
    (∀ t, t < n →
      (copy_n_last_steps n l).getD t d = l.getD (l.length - n + t) d)
    ∧ (temporal_run step n_steps (copy_n_last_steps 1 l)).getD 0 d =
        l.getD (l.length - 1) d := by
  constructor
  · intro t ht
    exact copy_n_last_steps_getD n l hn t ht d
  · rw [temporal_run_getD_low step n_steps (copy_n_last_steps 1 l) 0
      (by unfold copy_n_last_steps; simp; omega)]
    have h := copy_n_last_steps_getD 1 l (by omega) 0 (by omega) d
    simpa using h

/-- Closed-form instance discharging the hypotheses of
`copy_n_last_steps_continuation` on the channel `[10, 20, 30]` with
`n = 2` and a two-step continuation run. -/
theorem copy_n_last_steps_continuation_witness :
    (2 ≤ ([(10 : ℚ), 20, 30] : List ℚ).length)
    ∧ (0 < ([(10 : ℚ), 20, 30] : List ℚ).length)
    ∧ ((∀ t, t < 2 →
      (copy_n_last_steps 2 [(10 : ℚ), 20, 30]).getD t 0 =
        ([(10 : ℚ), 20, 30] : List ℚ).getD
          (([(10 : ℚ), 20, 30] : List ℚ).length - 2 + t) 0)
    ∧ (temporal_run (fun t => (100 * t : ℚ)) 2
        (copy_n_last_steps 1 [(10 : ℚ), 20, 30])).getD 0 0 =
        ([(10 : ℚ), 20, 30] : List ℚ).getD
          (([(10 : ℚ), 20, 30] : List ℚ).length - 1) 0) :=
  ⟨by decide, by decide,
    copy_n_last_steps_continuation 2 [(10 : ℚ), 20, 30] (by decide)
      (by decide) (fun t => (100 * t : ℚ)) 2 0⟩

/-- The per-time-step slice of the Workspace that the stochastic actor
agents read and write at time `t`: the `env/env_obs` channel (already
written by the environment agent) and the channels an actor may write.
`V` is the type of value tensors, `A` the type of action tensors; a
channel that has not been written at `t` is `none` (reading it fails
with a "missing entry" error). -/
structure WsT (V A : Type) where
  env_obs : V
  action : Option A
  action_logprobs : Option V
  logprob_predict : Option V
  entropy : Option V

/-- The tensor operations used by `DiscreteActor`
(stochastic_actors.py, lines 98–153), kept abstract: `model` is the
MLP producing scores, `softmax` is `torch.softmax(scores, dim=-1)`,
`sample` is `Categorical(probs).sample()`, `argmax` is
`scores.argmax(1)`, `gather_log` is
`probs[torch.arange(probs.size()[0]), action].log()` and `cat_entropy`
is `Categorical(probs).entropy()`. -/
structure DiscreteActorOps (V A : Type) where
  model : V → V
  softmax : V → V
  sample : V → A
  argmax : V → A
  gather_log : V → A → V
  cat_entropy : V → V

/-- Embedding of `DiscreteActor.forward` (stochastic_actors.py, lines
110–143).  `observation_kwarg` models the optional `observation` kwarg;
entropy is written only under `compute_entropy`; under `predict_proba`
the stored action is read back (failing with a missing-entry error if
absent) and only `logprob_predict` is written; otherwise an action is
chosen (sampled when `stochastic`, else argmax of the scores) and
`action` and `action_logprobs` are written. -/
def DiscreteActor_forward {V A : Type} (ops : DiscreteActorOps V A)
    (observation_kwarg : Option V)
    (stochastic predict_proba compute_entropy : Bool)
    (ws : WsT V A) : Except String (WsT V A) :=
  let observation := observation_kwarg.getD ws.env_obs
  let scores := ops.model observation
  let probs := ops.softmax scores
  let ws₁ := if compute_entropy then
    { ws with entropy := some (ops.cat_entropy probs) } else ws
  if predict_proba then
    match ws₁.action with
    | none => Except.error "missing entry"
    | some action =>
      Except.ok { ws₁ with
        logprob_predict := some (ops.gather_log probs action) }
  else
    let action := if stochastic then ops.sample probs else ops.argmax scores
    Except.ok { ws₁ with
      action := some action,
      action_logprobs := some (ops.gather_log probs action) }

/-- The tensor operations used by `TunableVarianceContinuousActor`
(stochastic_actors.py, lines 159–209), kept abstract: `model` produces
the mean, and the distribution
`Independent(Normal(mean, softplus(std_param)), 1)` is folded into the
mean-indexed operations `dist_entropy`, `dist_log_prob` and
`dist_sample` (the learned `std_param` is a constant of the agent). -/
structure TunableActorOps (V : Type) where
  model : V → V
  dist_entropy : V → V
  dist_log_prob : V → V → V
  dist_sample : V → V

/-- Embedding of `TunableVarianceContinuousActor.forward`
(stochastic_actors.py, lines 173–200): entropy only under
`compute_entropy`; under `predict_proba` the stored action is re-scored
into `logprob_predict`; otherwise the action (a sample when
`stochastic`, else the mean) and its log-probability are written. -/
def TunableVarianceContinuousActor_forward {V : Type}
    (ops : TunableActorOps V)
    (stochastic predict_proba compute_entropy : Bool)
    (ws : WsT V V) : Except String (WsT V V) :=
  let obs := ws.env_obs
  let mean := ops.model obs
  let ws₁ := if compute_entropy then
    { ws with entropy := some (ops.dist_entropy mean) } else ws
  if predict_proba then
    match ws₁.action with
    | none => Except.error "missing entry"
    | some action =>
      Except.ok { ws₁ with
        logprob_predict := some (ops.dist_log_prob mean action) }
  else
    let action := if stochastic then ops.dist_sample mean else mean
    Except.ok { ws₁ with
      action := some action,
      action_logprobs := some (ops.dist_log_prob mean action) }

theorem DiscreteActor_forward_predict {V A : Type}
    (ops : DiscreteActorOps V A) (observation_kwarg : Option V)
    (stochastic compute_entropy : Bool) (ws : WsT V A) (a : A)
    (h : ws.action = some a) :
    DiscreteActor_forward ops observation_kwarg stochastic true
        compute_entropy ws =
      Except.ok { ws with
        entropy := if compute_entropy then
          some (ops.cat_entropy (ops.softmax
            (ops.model (observation_kwarg.getD ws.env_obs))))
          else ws.entropy,
        logprob_predict := some (ops.gather_log
          (ops.softmax (ops.model (observation_kwarg.getD ws.env_obs)))
          a) } := by
  unfold DiscreteActor_forward
  cases compute_entropy <;> simp [h]

theorem TunableActor_forward_predict {V : Type} (ops : TunableActorOps V)
    (stochastic compute_entropy : Bool) (ws : WsT V V) (b : V)
    (h : ws.action = some b) :
    TunableVarianceContinuousActor_forward ops stochastic true
        compute_entropy ws =
      Except.ok { ws with
        entropy := if compute_entropy then
          some (ops.dist_entropy (ops.model ws.env_obs)) else ws.entropy,
        logprob_predict :=
          some (ops.dist_log_prob (ops.model ws.env_obs) b) } := by
  unfold TunableVarianceContinuousActor_forward
  cases compute_entropy <;> simp [h]

/-- **C4.** With `predict_proba = True`, `DiscreteActor.forward` and
`TunableVarianceContinuousActor.forward` read the action already stored
at time `t`, write that action's log-probability under the current
distribution to `logprob_predict`, leave the `action` and
`action_logprobs` channels exactly as they were, and do not sample: the
result is the same for any value of the `stochastic` flag. -/
theorem predict_proba_frame {V A : Type} (dops : DiscreteActorOps V A)
    (tops : TunableActorOps V) (observation_kwarg : Option V)
    (stochastic compute_entropy : Bool) (wsd : WsT V A) (wst : WsT V V)
    (a : A) (b : V) (hd : wsd.action = some a) (ht : wst.action = some b) :
    (∃ wsd', DiscreteActor_forward dops observation_kwarg stochastic true
        compute_entropy wsd = Except.ok wsd'
      ∧ wsd'.logprob_predict = some (dops.gather_log
          (dops.softmax (dops.model (observation_kwarg.getD wsd.env_obs))) a)
      ∧ wsd'.action = wsd.action
      ∧ wsd'.action_logprobs = wsd.action_logprobs
      ∧ ∀ stochastic', DiscreteActor_forward dops observation_kwarg
          stochastic' true compute_entropy wsd = Except.ok wsd')
    ∧ (∃ wst', TunableVarianceContinuousActor_forward tops stochastic true
        compute_entropy wst = Except.ok wst'
      ∧ wst'.logprob_predict =
          some (tops.dist_log_prob (tops.model wst.env_obs) b)
      ∧ wst'.action = wst.action
      ∧ wst'.action_logprobs = wst.action_logprobs
      ∧ ∀ stochastic', TunableVarianceContinuousActor_forward tops
          stochastic' true compute_entropy wst = Except.ok wst') := by
  constructor
  · exact ⟨_, DiscreteActor_forward_predict dops observation_kwarg
        stochastic compute_entropy wsd a hd,
      rfl, rfl, rfl,
      fun s' => DiscreteActor_forward_predict dops observation_kwarg
        s' compute_entropy wsd a hd⟩
  · exact ⟨_, TunableActor_forward_predict tops stochastic
        compute_entropy wst b ht,
      rfl, rfl, rfl,
      fun s' => TunableActor_forward_predict tops s'
        compute_entropy wst b ht⟩

/-- A concrete `DiscreteActorOps` instance over `ℚ` used to instantiate
hypotheses of the frame theorems at concrete inputs. -/
def dOpsW : DiscreteActorOps ℚ ℚ where
  model := fun x => x + 1
  softmax := fun x => 2 * x
  sample := fun _ => 0
  argmax := fun x => x
  gather_log := fun p a => p + a
  cat_entropy := fun x => x

/-- A concrete `TunableActorOps` instance over `ℚ`. -/
def tOpsW : TunableActorOps ℚ where
  model := fun x => x + 1
  dist_entropy := fun x => x
  dist_log_prob := fun m a => m - a
  dist_sample := fun m => m

/-- A concrete workspace slice over `ℚ` with a stored action. -/
def wsdW : WsT ℚ ℚ :=
  { env_obs := 3, action := some 5, action_logprobs := some 7,
    logprob_predict := none, entropy := none }

/-- Closed-form instance discharging the hypotheses of
`predict_proba_frame` at the concrete instances `dOpsW`, `tOpsW`,
`wsdW` with stored action `5`. -/
theorem predict_proba_frame_witness :
    wsdW.action = some 5 ∧ wsdW.action = some 5 ∧
    ((∃ wsd', DiscreteActor_forward dOpsW none true true true wsdW
        = Except.ok wsd'
      ∧ wsd'.logprob_predict = some (dOpsW.gather_log
          (dOpsW.softmax (dOpsW.model ((none : Option ℚ).getD wsdW.env_obs)))
          5)
      ∧ wsd'.action = wsdW.action
      ∧ wsd'.action_logprobs = wsdW.action_logprobs
      ∧ ∀ stochastic', DiscreteActor_forward dOpsW none stochastic' true
          true wsdW = Except.ok wsd')
    ∧ (∃ wst', TunableVarianceContinuousActor_forward tOpsW true true
        true wsdW = Except.ok wst'
      ∧ wst'.logprob_predict =
          some (tOpsW.dist_log_prob (tOpsW.model wsdW.env_obs) 5)
      ∧ wst'.action = wsdW.action
      ∧ wst'.action_logprobs = wsdW.action_logprobs
      ∧ ∀ stochastic', TunableVarianceContinuousActor_forward tOpsW
          stochastic' true true wsdW = Except.ok wst')) :=
  ⟨rfl, rfl,
    predict_proba_frame dOpsW tOpsW none true true wsdW wsdW 5 5 rfl rfl⟩

/-- The tensor operations used by `ConstantVarianceContinuousActor`
(stochastic_actors.py, lines 334–373), kept abstract: `model` produces
the mean of `Normal(mean, self.std_param)` with the constant
`std_param = 2` folded into the distribution operations;
`sum_last_axis` is the `.sum(axis=-1)` applied to the log-probability
on the sampling branch only. -/
structure ConstantActorOps (V : Type) where
  model : V → V
  dist_entropy : V → V
  dist_log_prob : V → V → V
  dist_sample : V → V
  sum_last_axis : V → V

/-- Embedding of `ConstantVarianceContinuousActor.forward`
(stochastic_actors.py, lines 345–363).  Note two deliberate
translations from the source: the entropy channel is written
unconditionally (line 351 is not guarded by `compute_entropy`, though
the flag is accepted), and on the sampling branch the written
log-probability is `dist.log_prob(action).sum(axis=-1)` whereas the
`predict_proba` branch writes `dist.log_prob(action)` without the
sum. -/
def ConstantVarianceContinuousActor_forward {V : Type}
    (ops : ConstantActorOps V)
    (predict_proba compute_entropy stochastic : Bool)
    (ws : WsT V V) : Except String (WsT V V) :=
  let obs := ws.env_obs
  let mean := ops.model obs
  let ws₁ := { ws with entropy := some (ops.dist_entropy mean) }
  if predict_proba then
    match ws₁.action with
    | none => Except.error "missing entry"
    | some action =>
      Except.ok { ws₁ with
        logprob_predict := some (ops.dist_log_prob mean action) }
  else
    let action := if stochastic then ops.dist_sample mean else mean
    Except.ok { ws₁ with
      action := some action,
      action_logprobs :=
        some (ops.sum_last_axis (ops.dist_log_prob mean action)) }

/-- The per-time-step workspace slice for `BernoulliActor`: the model's
mean is one Bernoulli probability per batch slot (the network output of
shape `[batch, 1]` is represented per slot, so `squeeze(-1)` is the
identity on this representation), and actions are booleans per slot. -/
structure BernWs where
  env_obs : List ℚ
  action : Option (List Bool)
  action_logprobs : Option (List ℚ)
  logprob_predict : Option (List ℚ)
  entropy : Option (List ℚ)

/-- The operations used by `BernoulliActor` (stochastic_actors.py,
lines 33–64): `model` is the sigmoid-headed MLP giving one probability
per slot; `dist_entropy`, `dist_sample` and `log_prob_sum` stand for
`Bernoulli(mean).entropy()`, `dist.sample().int()` and
`dist.log_prob(action.float()).sum(axis=-1)`. -/
structure BernoulliOps where
  model : List ℚ → List ℚ
  dist_entropy : List ℚ → List ℚ
  dist_sample : List ℚ → List Bool
  log_prob_sum : List ℚ → List Bool → List ℚ

/-- Embedding of `BernoulliActor.forward` (stochastic_actors.py, lines
41–54).  Its Python signature is `forward(self, t, stochastic=False,
**kwargs)`: the `predict_proba` and `compute_entropy` options land in
`**kwargs` and are ignored, which the unused parameters mirror.  The
entropy channel is written unconditionally; the greedy branch takes
`mean.lt(0.5)` as the action; `action` and `action_logprobs` are always
(over)written and `logprob_predict` never is. -/
def BernoulliActor_forward (ops : BernoulliOps)
    (stochastic predict_proba compute_entropy : Bool)
    (ws : BernWs) : BernWs :=
  let obs := ws.env_obs
  let mean := ops.model obs
  let ws₁ := { ws with entropy := some (ops.dist_entropy mean) }
  let action := if stochastic then ops.dist_sample mean
    else mean.map (fun m => decide (m < (1 : ℚ)/2))
  { ws₁ with
    action := some action,
    action_logprobs := some (ops.log_prob_sum mean action) }

/-- Embedding of `BernoulliActor.predict_action` (stochastic_actors.py,
lines 56–64): same model and greedy rule, reading the observation
directly instead of the workspace. -/
def BernoulliActor_predict_action (ops : BernoulliOps) (obs : List ℚ)
    (stochastic : Bool) : List Bool :=
  let mean := ops.model obs
  if stochastic then ops.dist_sample mean
  else mean.map (fun m => decide (m < (1 : ℚ)/2))

/-- The per-time-step workspace slice for `ProbAgent`: it reads
`env/env_obs` and writes `action_probs` and `entropy`. -/
structure ProbWs (V : Type) where
  env_obs : V
  action_probs : Option V
  entropy : Option V

/-- The operations used by `ProbAgent` (stochastic_actors.py, lines
67–81): `model` is the MLP, `softmax` is `torch.softmax(scores, -1)`,
`isnan_any` is `torch.any(torch.isnan(action_probs))` and
`cat_entropy` is `Categorical(action_probs).entropy()`. -/
structure ProbAgentOps (V : Type) where
  model : V → V
  softmax : V → V
  isnan_any : V → Bool
  cat_entropy : V → V

/-- Embedding of `ProbAgent.forward` (stochastic_actors.py, lines
74–81): the assertion `assert not torch.any(torch.isnan(action_probs)),
"Nan Here"` raises before `action_probs` or `entropy` is written to the
workspace. -/
def ProbAgent_forward {V : Type} (ops : ProbAgentOps V)
    (ws : ProbWs V) : Except String (ProbWs V) :=
  let scores := ops.model ws.env_obs
  let action_probs := ops.softmax scores
  if ops.isnan_any action_probs then Except.error "Nan Here"
  else Except.ok { ws with
    action_probs := some action_probs,
    entropy := some (ops.cat_entropy action_probs) }

/-- A concrete `ConstantActorOps` instance over `ℚ`. -/
def cOpsW : ConstantActorOps ℚ where
  model := fun x => x
  dist_entropy := fun _ => 99
  dist_log_prob := fun m a => m - a
  dist_sample := fun m => m
  sum_last_axis := fun x => x

/-- A concrete workspace slice over `ℚ` with no channel written yet
except `env/env_obs`. -/
def wsCE : WsT ℚ ℚ :=
  { env_obs := 3, action := none, action_logprobs := none,
    logprob_predict := none, entropy := none }

/-- **C7, counterexample.** The claim "the entropy channel at `t` is
written exactly when the `compute_entropy` option passed to `forward`
is true" fails on `ConstantVarianceContinuousActor.forward`: called
with `compute_entropy = false` on a workspace whose entropy channel is
unset, it still writes the entropy channel. -/
theorem entropy_flag_counterexample :
    wsCE.entropy = none
    ∧ (ConstantVarianceContinuousActor_forward cOpsW false false false
        wsCE).map (fun w => w.entropy) = Except.ok (some 99) :=
  ⟨rfl, rfl⟩

/-- **C7, amended.** `DiscreteActor.forward` writes the entropy channel
exactly when `compute_entropy` is true (on both the action-producing
path and the `predict_proba` path, where it is otherwise left
unchanged), while `ConstantVarianceContinuousActor.forward` and
`BernoulliActor.forward` write the entropy channel unconditionally,
whatever the value of `compute_entropy` (`BernoulliActor.forward` does
not even accept the option: it is swallowed by `**kwargs`). -/
theorem entropy_write_amended {V A : Type} (dops : DiscreteActorOps V A)
    (cops : ConstantActorOps V) (bops : BernoulliOps)
    (observation_kwarg : Option V)
    (stochastic predict_proba compute_entropy : Bool)
    (wsd : WsT V A) (wsc : WsT V V) (wsb : BernWs) :
    ((DiscreteActor_forward dops observation_kwarg stochastic false
        compute_entropy wsd).map (fun w => w.entropy)
      = Except.ok (if compute_entropy then
          some (dops.cat_entropy (dops.softmax
            (dops.model (observation_kwarg.getD wsd.env_obs))))
          else wsd.entropy))
    ∧ (∀ a, wsd.action = some a →
      (DiscreteActor_forward dops observation_kwarg stochastic true
        compute_entropy wsd).map (fun w => w.entropy)
      = Except.ok (if compute_entropy then
          some (dops.cat_entropy (dops.softmax
            (dops.model (observation_kwarg.getD wsd.env_obs))))
          else wsd.entropy))
    ∧ ((ConstantVarianceContinuousActor_forward cops false
        compute_entropy stochastic wsc).map (fun w => w.entropy)
      = Except.ok (some (cops.dist_entropy (cops.model wsc.env_obs))))
    ∧ ((BernoulliActor_forward bops stochastic predict_proba
        compute_entropy wsb).entropy
      = some (bops.dist_entropy (bops.model wsb.env_obs))) := by
  refine ⟨?_, ?_, rfl, rfl⟩
  · cases compute_entropy <;> rfl
  · intro a ha
    rw [DiscreteActor_forward_predict dops observation_kwarg stochastic
      compute_entropy wsd a ha]
    rfl

/-- A concrete `BernoulliOps` instance. -/
def bOpsW : BernoulliOps where
  model := fun l => l
  dist_entropy := fun l => l
  dist_sample := fun l => l.map (fun _ => true)
  log_prob_sum := fun l _ => l

/-- A concrete `BernWs` workspace slice. -/
def wsbW : BernWs :=
  { env_obs := [1/4, 3/4], action := none, action_logprobs := none,
    logprob_predict := none, entropy := none }

/-- Closed-form instance discharging the hypotheses of
`entropy_write_amended` at the concrete instances `dOpsW`, `cOpsW`,
`bOpsW` with `compute_entropy = false`. -/
theorem entropy_write_amended_witness :
    ((DiscreteActor_forward dOpsW none false false false wsdW).map
        (fun w => w.entropy)
      = Except.ok (if false then
          some (dOpsW.cat_entropy (dOpsW.softmax
            (dOpsW.model ((none : Option ℚ).getD wsdW.env_obs))))
          else wsdW.entropy))
    ∧ (wsdW.action = some 5)
    ∧ ((DiscreteActor_forward dOpsW none false true false wsdW).map
        (fun w => w.entropy)
      = Except.ok (if false then
          some (dOpsW.cat_entropy (dOpsW.softmax
            (dOpsW.model ((none : Option ℚ).getD wsdW.env_obs))))
          else wsdW.entropy))
    ∧ ((ConstantVarianceContinuousActor_forward cOpsW false false false
        wsCE).map (fun w => w.entropy)
      = Except.ok (some (cOpsW.dist_entropy (cOpsW.model wsCE.env_obs))))
    ∧ ((BernoulliActor_forward bOpsW false false false wsbW).entropy
      = some (bOpsW.dist_entropy (bOpsW.model wsbW.env_obs))) :=
  ⟨(entropy_write_amended dOpsW cOpsW bOpsW none false false false
      wsdW wsCE wsbW).1,
    rfl,
    (entropy_write_amended dOpsW cOpsW bOpsW none false false false
      wsdW wsCE wsbW).2.1 5 rfl,
    (entropy_write_amended dOpsW cOpsW bOpsW none false false false
      wsdW wsCE wsbW).2.2.1,
    (entropy_write_amended dOpsW cOpsW bOpsW none false false false
      wsdW wsCE wsbW).2.2.2⟩

theorem DiscreteActor_forward_sample {V A : Type}
    (ops : DiscreteActorOps V A) (observation_kwarg : Option V)
    (stochastic compute_entropy : Bool) (ws : WsT V A) :
    DiscreteActor_forward ops observation_kwarg stochastic false
        compute_entropy ws =
      Except.ok { ws with
        entropy := if compute_entropy then
          some (ops.cat_entropy (ops.softmax
            (ops.model (observation_kwarg.getD ws.env_obs))))
          else ws.entropy,
        action := some (if stochastic then
            ops.sample (ops.softmax
              (ops.model (observation_kwarg.getD ws.env_obs)))
          else ops.argmax (ops.model (observation_kwarg.getD ws.env_obs))),
        action_logprobs := some (ops.gather_log
          (ops.softmax (ops.model (observation_kwarg.getD ws.env_obs)))
          (if stochastic then
            ops.sample (ops.softmax
              (ops.model (observation_kwarg.getD ws.env_obs)))
          else ops.argmax
            (ops.model (observation_kwarg.getD ws.env_obs)))) } := by
  unfold DiscreteActor_forward
  cases compute_entropy <;> rfl

/-- A tensor value carrying a NaN taint: either an exact rational entry
or a NaN-containing tensor, standing for the float tensors on which
`torch.isnan` is tested. -/
inductive NVal where
  | num (q : ℚ)
  | nan
deriving DecidableEq

/-- `torch.any(torch.isnan(·))` on `NVal`. -/
def NVal.isnan : NVal → Bool
  | .nan => true
  | .num _ => false

/-- A `DiscreteActorOps` instance over `NVal` whose network output is
NaN; `gather_log` propagates the NaN of the probabilities, as
`probs[...].log()` does. -/
def dOpsNan : DiscreteActorOps NVal NVal where
  model := fun _ => NVal.nan
  softmax := fun x => x
  sample := fun _ => NVal.num 0
  argmax := fun _ => NVal.num 0
  gather_log := fun p _ => p
  cat_entropy := fun x => x

/-- A workspace slice over `NVal` with only the observation written. -/
def wsNan : WsT NVal NVal :=
  { env_obs := NVal.num 1, action := none, action_logprobs := none,
    logprob_predict := none, entropy := none }

/-- **C8, counterexample.** The claim "whenever a policy agent produces
NaN action probabilities during forward, the failure is detected at the
point of production and raised immediately, before the NaN value is
written to any workspace channel" fails on `DiscreteActor.forward`: on
an input whose action probabilities are NaN, the call raises nothing
(it returns successfully) and writes the NaN-valued log-probability to
the `action_logprobs` channel. -/
theorem nan_check_counterexample :
    NVal.isnan (dOpsNan.softmax (dOpsNan.model wsNan.env_obs)) = true
    ∧ (DiscreteActor_forward dOpsNan none false false false wsNan).map
        (fun w => w.action_logprobs) = Except.ok (some NVal.nan) :=
  ⟨rfl, rfl⟩

/-- **C8, amended.** The NaN detection exists only in
`ProbAgent.forward`: when the softmax probabilities contain NaN it
raises (`"Nan Here"`) before any workspace channel is written.
`DiscreteActor.forward` performs no NaN check: it always returns
successfully on the action-producing path and writes the
log-probability derived from the (possibly NaN) probabilities to the
workspace. -/
theorem nan_detection_amended {V A : Type} (pops : ProbAgentOps V)
    (ws : ProbWs V) (dops : DiscreteActorOps V A)
    (observation_kwarg : Option V) (stochastic compute_entropy : Bool)
    (wsd : WsT V A)
    (hnan : pops.isnan_any (pops.softmax (pops.model ws.env_obs)) = true) :
    ProbAgent_forward pops ws = Except.error "Nan Here"
    ∧ ∃ wsd', DiscreteActor_forward dops observation_kwarg stochastic
        false compute_entropy wsd = Except.ok wsd'
      ∧ wsd'.action_logprobs = some (dops.gather_log
          (dops.softmax (dops.model (observation_kwarg.getD wsd.env_obs)))
          (if stochastic then
            dops.sample (dops.softmax
              (dops.model (observation_kwarg.getD wsd.env_obs)))
          else dops.argmax
            (dops.model (observation_kwarg.getD wsd.env_obs)))) := by
  constructor
  · unfold ProbAgent_forward
    simp [hnan]
  · exact ⟨_, DiscreteActor_forward_sample dops observation_kwarg
      stochastic compute_entropy wsd, rfl⟩

/-- A `ProbAgentOps` instance over `NVal` whose softmax output is
NaN. -/
def pOpsNan : ProbAgentOps NVal where
  model := fun _ => NVal.nan
  softmax := fun x => x
  isnan_any := NVal.isnan
  cat_entropy := fun x => x

/-- A `ProbWs` workspace slice over `NVal`. -/
def wsPNan : ProbWs NVal :=
  { env_obs := NVal.num 1, action_probs := none, entropy := none }

/-- Closed-form instance discharging the hypothesis of
`nan_detection_amended` at the NaN-producing instances `pOpsNan`,
`dOpsNan`. -/
theorem nan_detection_amended_witness :
    (pOpsNan.isnan_any (pOpsNan.softmax (pOpsNan.model wsPNan.env_obs))
      = true)
    ∧ (ProbAgent_forward pOpsNan wsPNan = Except.error "Nan Here"
    ∧ ∃ wsd', DiscreteActor_forward dOpsNan none false false false wsNan
        = Except.ok wsd'
      ∧ wsd'.action_logprobs = some (dOpsNan.gather_log
          (dOpsNan.softmax (dOpsNan.model
            ((none : Option NVal).getD wsNan.env_obs)))
          (if false then
            dOpsNan.sample (dOpsNan.softmax (dOpsNan.model
              ((none : Option NVal).getD wsNan.env_obs)))
          else dOpsNan.argmax (dOpsNan.model
            ((none : Option NVal).getD wsNan.env_obs))))) :=
  ⟨rfl, nan_detection_amended pOpsNan wsPNan dOpsNan none false false
    wsNan rfl⟩

theorem TunableActor_forward_sample {V : Type} (ops : TunableActorOps V)
    (stochastic compute_entropy : Bool) (ws : WsT V V) :
    TunableVarianceContinuousActor_forward ops stochastic false
        compute_entropy ws =
      Except.ok { ws with
        entropy := if compute_entropy then
          some (ops.dist_entropy (ops.model ws.env_obs)) else ws.entropy,
        action := some (if stochastic then
          ops.dist_sample (ops.model ws.env_obs) else ops.model ws.env_obs),
        action_logprobs := some (ops.dist_log_prob (ops.model ws.env_obs)
          (if stochastic then ops.dist_sample (ops.model ws.env_obs)
            else ops.model ws.env_obs)) } := by
  unfold TunableVarianceContinuousActor_forward
  cases compute_entropy <;> rfl

theorem ConstantActor_forward_sample {V : Type}
    (ops : ConstantActorOps V) (compute_entropy stochastic : Bool)
    (ws : WsT V V) :
    ConstantVarianceContinuousActor_forward ops false compute_entropy
        stochastic ws =
      Except.ok { ws with
        entropy := some (ops.dist_entropy (ops.model ws.env_obs)),
        action := some (if stochastic then
          ops.dist_sample (ops.model ws.env_obs) else ops.model ws.env_obs),
        action_logprobs := some (ops.sum_last_axis
          (ops.dist_log_prob (ops.model ws.env_obs)
            (if stochastic then ops.dist_sample (ops.model ws.env_obs)
              else ops.model ws.env_obs))) } := rfl

theorem ConstantActor_forward_predict {V : Type}
    (ops : ConstantActorOps V) (compute_entropy stochastic : Bool)
    (ws : WsT V V) (a : V) (h : ws.action = some a) :
    ConstantVarianceContinuousActor_forward ops true compute_entropy
        stochastic ws =
      Except.ok { ws with
        entropy := some (ops.dist_entropy (ops.model ws.env_obs)),
        logprob_predict :=
          some (ops.dist_log_prob (ops.model ws.env_obs) a) } := by
  unfold ConstantVarianceContinuousActor_forward
  simp [h]

/-- A per-slot tensor value that records its shape: `vec l` is a
tensor with a trailing action axis (one entry per action dimension),
`scalar q` the result of reducing that axis with `.sum(axis=-1)`.
Entries are integers so that concrete runs reduce in the kernel. -/
inductive TVal where
  | vec (l : List ℤ)
  | scalar (q : ℤ)
deriving DecidableEq

/-- A `ConstantActorOps` instance over `TVal` with two action
dimensions: the per-dimension log-probabilities are `[1, 2]` and
`sum_last_axis` reduces a `vec` to the `scalar` holding its sum. -/
def cOpsT : ConstantActorOps TVal where
  model := fun x => x
  dist_entropy := fun x => x
  dist_log_prob := fun _ _ => TVal.vec [1, 2]
  dist_sample := fun x => x
  sum_last_axis := fun v => match v with
    | .vec l => .scalar l.sum
    | .scalar q => .scalar q

/-- A workspace slice over `TVal` with only the observation written. -/
def wsT0 : WsT TVal TVal :=
  { env_obs := TVal.vec [0, 0], action := none, action_logprobs := none,
    logprob_predict := none, entropy := none }

/-- **C9, counterexample.** The claim that a `predict_proba=True`
re-scoring writes a `logprob_predict` equal (in value and shape) to the
`action_logprobs` written by the preceding action-producing call fails
on `ConstantVarianceContinuousActor`: the first call writes
`dist.log_prob(action).sum(axis=-1)` (a scalar per slot) while the
re-scoring call writes `dist.log_prob(action)` without the sum (one
entry per action dimension); with two action dimensions and
per-dimension log-probabilities `[1, 2]` the two channels end up
holding `vec [1, 2]` and `scalar 3`. -/
theorem predict_roundtrip_counterexample :
    ((ConstantVarianceContinuousActor_forward cOpsT false false false
        wsT0).bind
      (fun w => ConstantVarianceContinuousActor_forward cOpsT true false
        false w)).map (fun w => (w.logprob_predict, w.action_logprobs))
      = Except.ok (some (TVal.vec [1, 2]), some (TVal.scalar 3))
    ∧ TVal.vec [1, 2] ≠ TVal.scalar 3 :=
  ⟨rfl, by decide⟩

/-- **C9, amended.** The re-scoring round-trip — `forward` with
`predict_proba=False` writing `action` and `action_logprobs`, then a
second `forward` at the same time step with `predict_proba=True` —
writes a `logprob_predict` equal to the stored `action_logprobs` for
`DiscreteActor` and `TunableVarianceContinuousActor`; for
`ConstantVarianceContinuousActor` the second call instead writes the
per-dimension log-probability while the first wrote its
`sum(axis=-1)`; and `BernoulliActor.forward` ignores `predict_proba`
and never writes `logprob_predict` at all. -/
theorem predict_roundtrip_amended {V A : Type}
    (dops : DiscreteActorOps V A) (tops : TunableActorOps V)
    (cops : ConstantActorOps V) (bops : BernoulliOps)
    (stochastic compute_entropy stochastic' compute_entropy'
      predict_proba : Bool)
    (wsd : WsT V A) (wst : WsT V V) (wsc : WsT V V) (wsb : BernWs) :
    (∃ ws₁ ws₂, DiscreteActor_forward dops none stochastic false
        compute_entropy wsd = Except.ok ws₁
      ∧ DiscreteActor_forward dops none stochastic' true
          compute_entropy' ws₁ = Except.ok ws₂
      ∧ ws₂.logprob_predict = ws₁.action_logprobs)
    ∧ (∃ ws₁ ws₂, TunableVarianceContinuousActor_forward tops stochastic
        false compute_entropy wst = Except.ok ws₁
      ∧ TunableVarianceContinuousActor_forward tops stochastic' true
          compute_entropy' ws₁ = Except.ok ws₂
      ∧ ws₂.logprob_predict = ws₁.action_logprobs)
    ∧ (∃ ws₁ ws₂, ConstantVarianceContinuousActor_forward cops false
        compute_entropy stochastic wsc = Except.ok ws₁
      ∧ ConstantVarianceContinuousActor_forward cops true
          compute_entropy' stochastic' ws₁ = Except.ok ws₂
      ∧ ws₂.logprob_predict = some (cops.dist_log_prob
          (cops.model wsc.env_obs)
          (if stochastic then cops.dist_sample (cops.model wsc.env_obs)
            else cops.model wsc.env_obs))
      ∧ ws₁.action_logprobs = some (cops.sum_last_axis
          (cops.dist_log_prob (cops.model wsc.env_obs)
            (if stochastic then cops.dist_sample (cops.model wsc.env_obs)
              else cops.model wsc.env_obs))))
    ∧ ((BernoulliActor_forward bops stochastic predict_proba
        compute_entropy wsb).logprob_predict = wsb.logprob_predict) := by
  refine ⟨?_, ?_, ?_, rfl⟩
  · exact ⟨_, _,
      DiscreteActor_forward_sample dops none stochastic compute_entropy
        wsd,
      DiscreteActor_forward_predict dops none stochastic'
        compute_entropy' _ _ rfl,
      rfl⟩
  · exact ⟨_, _,
      TunableActor_forward_sample tops stochastic compute_entropy wst,
      TunableActor_forward_predict tops stochastic' compute_entropy' _ _
        rfl,
      rfl⟩
  · exact ⟨_, _,
      ConstantActor_forward_sample cops compute_entropy stochastic wsc,
      ConstantActor_forward_predict cops compute_entropy' stochastic' _ _
        rfl,
      rfl, rfl⟩

theorem getD_map_lt_half (l : List ℚ) (i : ℕ) (hi : i < l.length) :
    (l.map (fun m => decide (m < (1 : ℚ)/2))).getD i false
      = decide (l.getD i 0 < (1 : ℚ)/2) := by
  induction l generalizing i with
  | nil => simp at hi
  | cons a l ih =>
    cases i with
    | zero => rfl
    | succ i => exact ih i (by simpa using hi)

/-- **C10.** In greedy mode (`stochastic=False`),
`BernoulliActor.forward` takes `mean.lt(0.5)` as the action — the
action is `True` (1) exactly when the model's predicted mean
probability is strictly below `0.5` — and
`BernoulliActor.predict_action` with `stochastic=False` returns the
same boolean action as the greedy branch of `forward` for the same
observation and parameters. -/
theorem bernoulli_greedy_lt_half (ops : BernoulliOps) (ws : BernWs)
    (predict_proba compute_entropy : Bool) :
    ((BernoulliActor_forward ops false predict_proba compute_entropy
        ws).action
      = some ((ops.model ws.env_obs).map
          (fun m => decide (m < (1 : ℚ)/2))))
    ∧ (∀ i, i < (ops.model ws.env_obs).length →
      (((ops.model ws.env_obs).map
          (fun m => decide (m < (1 : ℚ)/2))).getD i false = true
        ↔ (ops.model ws.env_obs).getD i 0 < (1 : ℚ)/2))
    ∧ BernoulliActor_predict_action ops ws.env_obs false
      = (ops.model ws.env_obs).map (fun m => decide (m < (1 : ℚ)/2)) := by
  refine ⟨rfl, ?_, rfl⟩
  intro i hi
  rw [getD_map_lt_half (ops.model ws.env_obs) i hi]
  simp

/-- Closed-form instance discharging the hypotheses of
`bernoulli_greedy_lt_half` at the concrete instance `bOpsW`, `wsbW`,
slot index 0. -/
theorem bernoulli_greedy_lt_half_witness :
    (0 < (bOpsW.model wsbW.env_obs).length)
    ∧ ((BernoulliActor_forward bOpsW false false false wsbW).action
      = some ((bOpsW.model wsbW.env_obs).map
          (fun m => decide (m < (1 : ℚ)/2))))
    ∧ (((bOpsW.model wsbW.env_obs).map
          (fun m => decide (m < (1 : ℚ)/2))).getD 0 false = true
        ↔ (bOpsW.model wsbW.env_obs).getD 0 0 < (1 : ℚ)/2)
    ∧ BernoulliActor_predict_action bOpsW wsbW.env_obs false
      = (bOpsW.model wsbW.env_obs).map (fun m => decide (m < (1 : ℚ)/2)) :=
  ⟨by decide, (bernoulli_greedy_lt_half bOpsW wsbW false false).1,
    (bernoulli_greedy_lt_half bOpsW wsbW false false).2.1 0 (by decide),
    (bernoulli_greedy_lt_half bOpsW wsbW false false).2.2⟩

/-- Modelled from the spec: the environment driver's deterministic
seeding and stepping (the Gym agents are not part of this repository's
sources).  Environment seeding is derived deterministically from a base
seed, and the per-slot dynamics is a pure transition function of the
current state and the applied action. -/
structure GymEnv (S O A : Type) where
  seed_init : ℕ → S
  obs : S → O
  step : S → A → S

/-- Modelled from the spec: a rollout of the temporal agent — the
environment driver writes the observation, the discrete actor computes
scores with its network and selects an action (`scores.argmax(1)` when
`stochastic` is false, as in `DiscreteActor.forward`; a draw from the
RNG-threaded sampler when true), and the environment steps.  The RNG
state is threaded explicitly; the greedy branch does not consume it.
Returns the observation/action sequence of the `n` steps. -/
def rollout {S O V A R : Type} (env : GymEnv S O A) (model : O → V)
    (argmax : V → A) (sample : V → R → A × R) (stochastic : Bool) :
    ℕ → S → R → List (O × A)
  | 0, _, _ => []
  | n + 1, s, rng =>
    let o := env.obs s
    let scores := model o
    let ar := if stochastic then sample scores rng
      else (argmax scores, rng)
    (o, ar.1) ::
      rollout env model argmax sample stochastic n (env.step s ar.1) ar.2

theorem rollout_greedy_rng_irrelevant {S O V A R : Type}
    (env : GymEnv S O A) (model : O → V) (argmax : V → A)
    (sample : V → R → A × R) (n : ℕ) (s : S) (rng₁ rng₂ : R) :
    rollout env model argmax sample false n s rng₁ =
      rollout env model argmax sample false n s rng₂ := by
  induction n generalizing s with
  | zero => rfl
  | succ n ih =>
    exact congrArg
      (List.cons (env.obs s, argmax (model (env.obs s))))
      (ih (env.step s (argmax (model (env.obs s)))))

/-- **C5.** With `stochastic=False` (greedy action selection), a
rollout of `n_steps = 10` is a deterministic function of the base seed
and the starting state: two runs from the same seed-derived initial
state produce bit-identical observation/action sequences, whatever RNG
states the two runs carry. -/
theorem greedy_rollout_deterministic {S O V A R : Type}
    (env : GymEnv S O A) (model : O → V) (argmax : V → A)
    (sample : V → R → A × R) (seed : ℕ) (rng₁ rng₂ : R) :
    rollout env model argmax sample false 10 (env.seed_init seed) rng₁ =
      rollout env model argmax sample false 10 (env.seed_init seed)
        rng₂ :=
  rollout_greedy_rng_irrelevant env model argmax sample 10
    (env.seed_init seed) rng₁ rng₂

/-- Modelled from the spec: the per-slot state of the NoAutoReset
environment driver (`NoAutoResetGymAgent` / `NoAutoResetEnvAgent` are
not part of this repository's sources): current observation, cumulated
episode reward, and whether the slot has reached episode end (`done or
truncated`, the `DONE_TERMINAL` freeze state). -/
structure Slot (O : Type) where
  obs : O
  cum : ℚ
  done : Bool

/-- One written workspace row for one slot: the `env/env_obs`,
`env/reward`, `env/cumulated_reward` and `env/done` channel entries at
one time step. -/
structure Row (O : Type) where
  obs : O
  reward : ℚ
  cum : ℚ
  done : Bool

/-- Modelled from the spec: the per-slot environment dynamics seen by
the driver — next observation, reward, and whether the episode ended,
as a pure function of current observation and applied action. -/
structure EnvDyn (O A : Type) where
  step : O → A → O × ℚ × Bool

/-- Modelled from the spec: one NoAutoReset driver step for one slot.
A slot that has reached done stops stepping its environment: it holds
(repeats) its final observation, writes reward exactly 0 and keeps its
cumulated reward.  A running slot applies the policy's action, writes
the produced observation and reward, accumulates the reward and records
the new termination flag. -/
def no_auto_reset_step {O A : Type} (env : EnvDyn O A) (pol : O → A)
    (s : Slot O) : Slot O × Row O :=
  if s.done then
    (s, { obs := s.obs, reward := 0, cum := s.cum, done := true })
  else
    let res := env.step s.obs (pol s.obs)
    ({ obs := res.1, cum := s.cum + res.2.1, done := res.2.2 },
     { obs := res.1, reward := res.2.1, cum := s.cum + res.2.1,
       done := res.2.2 })

/-- The rows one slot writes over `n` driver steps. -/
def slot_run {O A : Type} (env : EnvDyn O A) (pol : O → A) :
    ℕ → Slot O → List (Row O)
  | 0, _ => []
  | n + 1, s =>
    (no_auto_reset_step env pol s).2 ::
      slot_run env pol n (no_auto_reset_step env pol s).1

/-- Modelled from the spec: the number of steps the evaluation loop
executes — the driver stops the temporal loop (the
`stop_variable="env/done"` condition) as soon as every slot is done,
rather than running the full `fuel` bound. -/
def stop_steps {O A : Type} (env : EnvDyn O A) (pol : O → A) :
    ℕ → List (Slot O) → ℕ
  | 0, _ => 0
  | n + 1, slots =>
    if slots.all (fun s => s.done) then 0
    else stop_steps env pol n
      (slots.map (fun s => (no_auto_reset_step env pol s).1)) + 1

/-- Modelled from the spec: the NoAutoReset evaluation rollout.  All
slots advance in lock-step for the same number of driver steps, that
number determined by the all-done stop condition; the result lists each
slot's trajectory (its column of the evaluation workspace). -/
def eval_rollout {O A : Type} (env : EnvDyn O A) (pol : O → A)
    (fuel : ℕ) (slots : List (Slot O)) : List (List (Row O)) :=
  slots.map (slot_run env pol (stop_steps env pol fuel slots))

theorem getLastD_cons_eq {α : Type} (a d : α) (l : List α) :
    (a :: l).getLastD d = l.getLastD a := by
  cases l <;> simp [List.getLastD]

theorem slot_run_frozen {O A : Type} (env : EnvDyn O A) (pol : O → A)
    (o : O) (c : ℚ) :
    ∀ n j, j < n → ∀ d,
    (slot_run env pol n { obs := o, cum := c, done := true }).getD j d
      = { obs := o, reward := 0, cum := c, done := true } := by
  intro n
  induction n with
  | zero => intro j hj d; simp at hj
  | succ n ih =>
    intro j hj d
    cases j with
    | zero => rfl
    | succ j => exact ih j (by omega) d

theorem no_auto_reset_step_done {O A : Type} (env : EnvDyn O A)
    (pol : O → A) (s : Slot O)
    (h : (no_auto_reset_step env pol s).2.done = true) :
    (no_auto_reset_step env pol s).1 =
      { obs := (no_auto_reset_step env pol s).2.obs,
        cum := (no_auto_reset_step env pol s).2.cum, done := true } := by
  unfold no_auto_reset_step at h ⊢
  by_cases hd : s.done
  · cases s with
    | mk o c dn => simp_all
  · simp only [hd, Bool.false_eq_true, if_false] at h ⊢
    simp [h]

theorem slot_run_freeze {O A : Type} (env : EnvDyn O A) (pol : O → A)
    (d : Row O) :
    ∀ n (s : Slot O) i j, i < j → j < n →
    ((slot_run env pol n s).getD i d).done = true →
    ((slot_run env pol n s).getD j d).reward = 0
    ∧ ((slot_run env pol n s).getD j d).obs
        = ((slot_run env pol n s).getD i d).obs := by
  intro n
  induction n with
  | zero => intro s i j hij hjn hdone; simp at hjn
  | succ n ih =>
    intro s i j hij hjn hdone
    obtain ⟨j', rfl⟩ : ∃ j', j = j' + 1 := ⟨j - 1, by omega⟩
    cases i with
    | zero =>
      have hstate := no_auto_reset_step_done env pol s hdone
      constructor
      · show ((slot_run env pol n
            (no_auto_reset_step env pol s).1).getD j' d).reward = 0
        rw [hstate, slot_run_frozen env pol _ _ n j' (by omega) d]
      · show ((slot_run env pol n
            (no_auto_reset_step env pol s).1).getD j' d).obs = _
        rw [hstate, slot_run_frozen env pol _ _ n j' (by omega) d]
        rfl
    | succ i =>
      exact ih (no_auto_reset_step env pol s).1 i j' (by omega) (by omega)
        hdone

theorem no_auto_reset_step_cum {O A : Type} (env : EnvDyn O A)
    (pol : O → A) (s : Slot O) :
    (no_auto_reset_step env pol s).1.cum
      = s.cum + (no_auto_reset_step env pol s).2.reward := by
  unfold no_auto_reset_step
  by_cases hd : s.done <;> simp [hd]

theorem slot_run_last_cum {O A : Type} (env : EnvDyn O A) (pol : O → A)
    (d : Row O) :
    ∀ n (s : Slot O), 0 < n →
    ((slot_run env pol n s).getLastD d).cum
      = s.cum + ((slot_run env pol n s).map (fun row => row.reward)).sum := by
  intro n
  induction n with
  | zero => intro s h; simp at h
  | succ n ih =>
    intro s h
    cases n with
    | zero =>
      show ((no_auto_reset_step env pol s).2).cum
        = s.cum + ((no_auto_reset_step env pol s).2.reward + 0)
      rw [add_zero]
      unfold no_auto_reset_step
      by_cases hd : s.done <;> simp [hd]
    | succ n =>
      show (((no_auto_reset_step env pol s).2 ::
        slot_run env pol (n + 1)
          (no_auto_reset_step env pol s).1).getLastD d).cum = _
      rw [getLastD_cons_eq]
      have hlast : (slot_run env pol (n + 1)
          (no_auto_reset_step env pol s).1).getLastD
            (no_auto_reset_step env pol s).2
          = (slot_run env pol (n + 1)
              (no_auto_reset_step env pol s).1).getLastD d := by
        cases hsr : slot_run env pol (n + 1)
            (no_auto_reset_step env pol s).1 with
        | nil => exact absurd hsr (by simp [slot_run])
        | cons r rs => rw [getLastD_cons_eq, getLastD_cons_eq]
      rw [hlast, ih (no_auto_reset_step env pol s).1 (by omega),
        no_auto_reset_step_cum env pol s]
      show s.cum + _ + _ = s.cum + (_ + _)
      rw [add_assoc]
      rfl

/-- **C6.** In a NoAutoReset evaluation rollout: (i) once a slot's
`done` flag is true at row `i`, every later row `j > i` of that slot
has reward exactly 0 and an unchanged observation (the slot freezes);
(ii) the temporal loop stops as soon as all slots are done — the
evaluation rollout then writes no further rows; (iii) for a slot whose
cumulated reward starts at 0, the last written row of its
`env/cumulated_reward` channel equals the sum of all its written
rewards — with (i), zero after episode end — i.e. its complete-episode
return. -/
theorem no_auto_reset_freeze {O A : Type} (env : EnvDyn O A)
    (pol : O → A) (d : Row O) :
    (∀ n (s : Slot O) i j, i < j → j < n →
      ((slot_run env pol n s).getD i d).done = true →
      ((slot_run env pol n s).getD j d).reward = 0
      ∧ ((slot_run env pol n s).getD j d).obs
          = ((slot_run env pol n s).getD i d).obs)
    ∧ (∀ fuel (slots : List (Slot O)),
      slots.all (fun s => s.done) = true →
      eval_rollout env pol fuel slots = slots.map (fun _ => []))
    ∧ (∀ n (s : Slot O), 0 < n → s.cum = 0 →
      ((slot_run env pol n s).getLastD d).cum
        = ((slot_run env pol n s).map (fun row => row.reward)).sum) := by
  refine ⟨slot_run_freeze env pol d, ?_, ?_⟩
  · intro fuel slots hall
    have hstop : stop_steps env pol fuel slots = 0 := by
      cases fuel with
      | zero => rfl
      | succ fuel => simp [stop_steps, hall]
    unfold eval_rollout
    rw [hstop]
    exact List.map_congr_left (fun s _ => rfl)
  · intro n s hn hcum
    rw [slot_run_last_cum env pol d n s hn, hcum, zero_add]

/-- A concrete environment over integer observations: stepping
increments the observation, yields reward 1, and ends the episode once
the observation reaches 2; the policy echoes the observation. -/
def envW : EnvDyn ℤ ℤ where
  step := fun o _ => (o + 1, 1, decide (1 ≤ o))

/-- The identity policy for `envW`. -/
def polW : ℤ → ℤ := fun o => o

/-- The initial slot for the concrete `envW` run. -/
def slotW : Slot ℤ := { obs := 0, cum := 0, done := false }

/-- A default row for indexing. -/
def rowd : Row ℤ := { obs := 0, reward := 0, cum := 0, done := false }

/-- An already-done slot, for the stop-condition instance. -/
def slotDone : Slot ℤ := { obs := 5, cum := 7, done := true }

/-- Closed-form instance discharging the hypotheses of
`no_auto_reset_freeze` on the concrete run of `envW` from `slotW`:
the slot becomes done at row 1 of a 3-step run (freeze checked at
row 2), the stop condition fires on an all-done batch, and the final
cumulated reward equals the summed rewards. -/
theorem no_auto_reset_freeze_witness :
    ((1 : ℕ) < 2) ∧ ((2 : ℕ) < 3)
    ∧ (((slot_run envW polW 3 slotW).getD 1 rowd).done = true)
    ∧ (((slot_run envW polW 3 slotW).getD 2 rowd).reward = 0
      ∧ ((slot_run envW polW 3 slotW).getD 2 rowd).obs
          = ((slot_run envW polW 3 slotW).getD 1 rowd).obs)
    ∧ ([slotDone].all (fun s => s.done) = true)
    ∧ (eval_rollout envW polW 4 [slotDone] = [slotDone].map (fun _ => []))
    ∧ ((0 : ℕ) < 3) ∧ (slotW.cum = 0)
    ∧ (((slot_run envW polW 3 slotW).getLastD rowd).cum
        = ((slot_run envW polW 3 slotW).map (fun row => row.reward)).sum) :=
  ⟨by decide, by decide, rfl,
    (no_auto_reset_freeze envW polW rowd).1 3 slotW 1 2 (by decide)
      (by decide) rfl,
    rfl,
    (no_auto_reset_freeze envW polW rowd).2.1 4 [slotDone] rfl,
    by decide, rfl,
    (no_auto_reset_freeze envW polW rowd).2.2 3 slotW (by decide) rfl⟩

end BbrlSpec
